import Mathlib

/-!
Shallow embedding of `src/position.rs` from the `portfolio_rs` repository.

Conventions of the embedding:
* Rust `f64` values are modelled by `ℚ` (exact arithmetic; every formula the
  code computes is a product/quotient of the inputs, so the algebraic claims
  are about these formulas).
* `chrono::DateTime<Utc>` is modelled by `Int`: the Unix timestamp in seconds.
* `chrono::Duration::days(n)` adds `n * 86400` seconds.
* `(to - from).num_days()` is the whole-day difference: the signed number of
  seconds divided by 86400, truncated toward zero (Rust/chrono semantics);
  Lean's `Int.div` also truncates toward zero.
* Rust `Option<T>` is `Option T`; `Result<T, E>` is `Except E T`.
* Methods taking `&mut self` are modelled as functions returning the updated
  position (paired with the Rust return value where there is one).
-/

/-- The portfolio position record (struct `PortfolioPosition`). -/
structure PortfolioPosition where
  name : Option String
  ticker : Option String
  asset_class : String
  amount : ℚ
  interest_rate : Option ℚ
  payment_frequency_days : Option Nat
  last_interest_payment : Option Int
  next_interest_payment : Option Int
  last_spot : ℚ
deriving Repr, DecidableEq

/-- `fn update_price(&mut self, last_spot: f64)`. -/
def PortfolioPosition.update_price (p : PortfolioPosition) (last_spot : ℚ) :
    PortfolioPosition :=
  { p with last_spot := last_spot }

/-- `fn get_name(&self) -> &str`. -/
def PortfolioPosition.get_name (p : PortfolioPosition) : String :=
  match p.name with
  | some name => name
  | none =>
    match p.ticker with
    | some ticker => ticker
    | none => "Unknown"

/-- `fn get_balance(&self) -> f64`. -/
def PortfolioPosition.get_balance (p : PortfolioPosition) : ℚ :=
  match p.ticker with
  | some _ => p.last_spot * p.amount
  | none => p.amount

/-- Rust's `str::to_lowercase`, character by character (`String.toLower`
stated over the character list so that it evaluates; on the ASCII strings
the program compares the two agree). -/
def rustToLowercase (s : String) : String :=
  String.mk (s.data.map Char.toLower)

/-- `fn is_cash_with_interest(&self) -> bool`. -/
def PortfolioPosition.is_cash_with_interest (p : PortfolioPosition) : Bool :=
  rustToLowercase p.asset_class == "cash"
    && p.interest_rate.isSome
    && p.payment_frequency_days.isSome
    && p.next_interest_payment.isSome

/-- `fn daily_interest_amount(&self) -> f64`. -/
def PortfolioPosition.daily_interest_amount (p : PortfolioPosition) : ℚ :=
  match p.interest_rate with
  | some rate => p.amount * (rate / 100) / 365
  | none => 0

/-- Whole-day difference `(to_date - from_date).num_days()`:
seconds divided by 86400, truncating toward zero. -/
def numDays (from_date to_date : Int) : Int :=
  Int.tdiv (to_date - from_date) 86400

/-- `fn calculate_interest(&self, from_date, to_date) -> f64`. -/
def PortfolioPosition.calculate_interest (p : PortfolioPosition)
    (from_date to_date : Int) : ℚ :=
  match p.interest_rate with
  | some rate =>
    let days : ℚ := (numDays from_date to_date : ℚ)
    p.amount * (rate / 100) * (days / 365)
  | none => 0

/-- `fn calculate_next_payment_date(&self, current_date) -> DateTime<Utc>`:
`current_date + Duration::days(payment_frequency_days.unwrap_or(30))`. -/
def PortfolioPosition.calculate_next_payment_date (p : PortfolioPosition)
    (current_date : Int) : Int :=
  let frequency_days := p.payment_frequency_days.getD 30
  current_date + (frequency_days : Int) * 86400

/-- `fn apply_interest_if_due(&mut self, current_date) -> Option<f64>`:
returns the Rust return value together with the updated position. -/
def PortfolioPosition.apply_interest_if_due (p : PortfolioPosition)
    (current_date : Int) : Option ℚ × PortfolioPosition :=
  if !p.is_cash_with_interest then
    (none, p)
  else
    match p.next_interest_payment with
    | some next_payment =>
      if next_payment ≤ current_date then
        let last_payment := p.last_interest_payment.getD next_payment
        let interest := p.calculate_interest last_payment current_date
        let p' := { p with
          amount := p.amount + interest,
          last_interest_payment := some current_date,
          next_interest_payment := some (p.calculate_next_payment_date current_date) }
        (some interest, p')
      else
        (none, p)
    | none => (none, p)

/-- `yahoo::YahooError` — only the variants the embedded code distinguishes.
`NoResult` is produced by `get_quote_name`; every other provider failure
(network, connector construction, malformed response) is `OtherError`. -/
inductive YahooError where
  | NoResult : YahooError
  | OtherError : YahooError
deriving Repr, DecidableEq

/-- One entry of a quote series; the code only reads its `close` price. -/
structure YQuote where
  close : ℚ
deriving Repr, DecidableEq

/-- `yahoo::YResponse`, as consumed by `handle_position`: its two accessor
methods `last_quote()` and `quotes()` each return a `Result`. -/
structure YResponse where
  last_quote : Except YahooError YQuote
  quotes : Except YahooError (List YQuote)
deriving Repr

/-- One entry of a ticker-search response; the code reads its `short_name`. -/
structure YSearchItem where
  short_name : String
deriving Repr, DecidableEq

/-- `yahoo::YSearchResponse`, as consumed by `get_quote_name`. -/
structure YSearchResponse where
  quotes : List YSearchItem
deriving Repr, DecidableEq

/-- The external quote provider's replies for one position's ticker: the
outcome of `get_quote_price(ticker)` and of `search_ticker(ticker)`
(the latter including any connector-construction failure). -/
structure QuoteProvider where
  quote_price : Except YahooError YResponse
  search : Except YahooError YSearchResponse
deriving Repr

/-- `async fn get_quote_name(ticker) -> Result<String, YahooError>`:
first search match's short name, else `Err(NoResult)`. -/
def get_quote_name (provider : QuoteProvider) : Except YahooError String :=
  match provider.search with
  | .error e => .error e
  | .ok resp =>
    match resp.quotes.head? with
    | some item => .ok item.short_name
    | none => .error .NoResult

/-- First block of `handle_position` (lines 253–263 of the source): set the
price from the live last quote, else fall back to the last entry of the
historical series, else leave the position as is. -/
def handle_position_price_step (quote : YResponse)
    (position : PortfolioPosition) : PortfolioPosition :=
  match quote.last_quote with
  | .ok last_spot => position.update_price last_spot.close
  | .error _ =>
    -- if the market is closed, try to get the last available price
    match quote.quotes with
    | .ok last_spot =>
      match last_spot.getLast? with
      | some last_spot => position.update_price last_spot.close
      | none => position
    | .error _ => position

/-- Second block of `handle_position` (lines 265–271 of the source): if no
name was provided in the JSON, resolve one via `get_quote_name`,
propagating its error with `?`; then return the (copied) position. -/
def handle_position_name_step (provider : QuoteProvider)
    (position : PortfolioPosition) :
    PortfolioPosition × Except YahooError PortfolioPosition :=
  if position.name.isNone then
    match get_quote_name provider with
    | .error e => (position, .error e)
    | .ok name =>
      let position := { position with name := some name }
      (position, .ok position)
  else
    (position, .ok position)

/-- `async fn handle_position(position) -> Result<PortfolioPosition, YahooError>`.
Returns the final state of the `&mut` position (mutations before an early
`?` return persist) together with the Rust return value; on success the
returned snapshot is a field-by-field copy of the mutated position. -/
def handle_position (provider : QuoteProvider) (position : PortfolioPosition) :
    PortfolioPosition × Except YahooError PortfolioPosition :=
  match position.ticker with
  | none => (position, .ok position)
  | some _ =>
    match provider.quote_price with
    | .error e => (position, .error e)
    | .ok quote =>
      handle_position_name_step provider
        (handle_position_price_step quote position)

/-- Gregorian leap-year test. -/
def isLeapYear (y : Nat) : Bool :=
  y % 4 == 0 && (y % 100 != 0 || y % 400 == 0)

/-- Number of days in a month of the proleptic Gregorian calendar. -/
def daysInMonth (y m : Nat) : Nat :=
  if m == 2 then (if isLeapYear y then 29 else 28)
  else if m == 4 || m == 6 || m == 9 || m == 11 then 30
  else 31

/-- Days from 1970-01-01 to the civil date `y-m-d` (Howard Hinnant's
`days_from_civil`, the standard algorithm; all divisions truncate toward
zero exactly as in the reference formulation). -/
def daysFromCivil (y m d : Nat) : Int :=
  let yi : Int := if m ≤ 2 then (y : Int) - 1 else (y : Int)
  let era : Int := (if 0 ≤ yi then yi else yi - 399).tdiv 400
  let yoe : Int := yi - era * 400
  let mp : Int := if 2 < m then (m : Int) - 3 else (m : Int) + 9
  let doy : Int := (153 * mp + 2).tdiv 5 + (d : Int) - 1
  let doe : Int := yoe * 365 + yoe.tdiv 4 - yoe.tdiv 100 + doy
  era * 146097 + doe - 719468

/-- Modelled from the spec: the `"%Y-%m-%d"` date format of the
`optional_datetime_format` serde helper. Parses `"YYYY-MM-DD"` into the
Unix timestamp of that day's midnight; a malformed or invalid calendar
date fails. -/
def parseDate (s : String) : Option Int :=
  match s.splitOn "-" with
  | [ys, ms, ds] => do
    let y ← ys.toNat?
    let m ← ms.toNat?
    let d ← ds.toNat?
    if 1 ≤ m && m ≤ 12 && 1 ≤ d && d ≤ daysInMonth y m then
      some (daysFromCivil y m d * 86400)
    else
      none
  | _ => none

/-- Modelled from the spec: decoding of one optional date field by
`optional_datetime_format::deserialize` — an omitted field or an empty
string is absent, otherwise the string must parse as `"%Y-%m-%d"`. -/
def decodeDateField (field : Option String) : Option (Option Int) :=
  match field with
  | none => some none
  | some s => if s = "" then some none else (parseDate s).map some

/-- Modelled from the spec: one record of the textual input schema (§6).
Every field a caller can put in the JSON text, including a hypothetical
`LastSpot` entry — the derive attribute `#[serde(skip_deserializing)]`
makes the decoder ignore such a field entirely. -/
structure RawPosition where
  name : Option String
  ticker : Option String
  asset_class : String
  amount : ℚ
  interest_rate : Option ℚ
  payment_frequency_days : Option Nat
  last_interest_payment : Option String
  next_interest_payment : Option String
  last_spot : Option ℚ
deriving Repr, DecidableEq

/-- Modelled from the spec: the serde-derived deserialization of one
`PortfolioPosition` record (the derive on lines 6–31 of
`src/position.rs`, which is generated code not present in `src/`).
`last_spot` carries `#[serde(skip_deserializing)]`, so it is initialized
to the `f64` default `0` no matter what the input record contains. -/
def decode_position (raw : RawPosition) : Option PortfolioPosition := do
  let last_interest_payment ← decodeDateField raw.last_interest_payment
  let next_interest_payment ← decodeDateField raw.next_interest_payment
  pure
    { name := raw.name
      ticker := raw.ticker
      asset_class := raw.asset_class
      amount := raw.amount
      interest_rate := raw.interest_rate
      payment_frequency_days := raw.payment_frequency_days
      last_interest_payment := last_interest_payment
      next_interest_payment := next_interest_payment
      last_spot := 0 }

/-! ### Sample positions used by the witnesses -/

/-- A priced stock position (`ticker` present). -/
def stockSample : PortfolioPosition :=
  { name := some "Apple", ticker := some "AAPL", asset_class := "Stock"
    amount := 2, interest_rate := none, payment_frequency_days := none
    last_interest_payment := none, next_interest_payment := none, last_spot := 3 }

/-- An interest-bearing cash position with all interest fields present. -/
def cashSample : PortfolioPosition :=
  { name := some "Savings", ticker := none, asset_class := "Cash"
    amount := 1000, interest_rate := some 5, payment_frequency_days := some 30
    last_interest_payment := none, next_interest_payment := some 86400
    last_spot := 0 }

/-! ### Helper lemmas shared by the claim theorems -/

/-- Unfolding of the eligibility predicate into its four conjuncts. -/
lemma is_cash_iff (p : PortfolioPosition) :
    p.is_cash_with_interest = true ↔
      rustToLowercase p.asset_class = "cash" ∧ p.interest_rate.isSome = true ∧
        p.payment_frequency_days.isSome = true ∧
        p.next_interest_payment.isSome = true := by
  simp [PortfolioPosition.is_cash_with_interest, and_assoc]

/-- An ineligible position is a no-op for `apply_interest_if_due`. -/
lemma apply_interest_not_eligible (p : PortfolioPosition) (current : Int)
    (h : p.is_cash_with_interest = false) :
    p.apply_interest_if_due current = (none, p) := by
  simp [PortfolioPosition.apply_interest_if_due, h]

/-- A due date still in the future is a no-op for `apply_interest_if_due`. -/
lemma apply_interest_pending (p : PortfolioPosition) (current np : Int)
    (hnp : p.next_interest_payment = some np) (hlt : current < np) :
    p.apply_interest_if_due current = (none, p) := by
  cases helig : p.is_cash_with_interest with
  | false => simp [PortfolioPosition.apply_interest_if_due, helig]
  | true =>
    simp [PortfolioPosition.apply_interest_if_due, helig, hnp,
      not_le.mpr hlt]

/-- The full effect of `apply_interest_if_due` on an eligible, due position. -/
lemma apply_interest_due_eq (p : PortfolioPosition) (current np : Int)
    (helig : p.is_cash_with_interest = true)
    (hnp : p.next_interest_payment = some np)
    (hdue : np ≤ current) :
    p.apply_interest_if_due current =
      (some (p.calculate_interest (p.last_interest_payment.getD np) current),
        { p with
          amount := p.amount +
            p.calculate_interest (p.last_interest_payment.getD np) current,
          last_interest_payment := some current,
          next_interest_payment :=
            some (current + (p.payment_frequency_days.getD 30 : Int) * 86400) }) := by
  simp [PortfolioPosition.apply_interest_if_due, helig, hnp, hdue,
    PortfolioPosition.calculate_next_payment_date]

/-! ### Claims -/

/-- **C4.** `is_cash_with_interest()` holds iff `asset_class` lowercases to
`"cash"` and `interest_rate`, `payment_frequency_days` and
`next_interest_payment` are all present; `last_interest_payment` has no
influence on the result. -/
theorem is_cash_with_interest_spec (p : PortfolioPosition) (x : Option Int) :
    (p.is_cash_with_interest = true ↔
      rustToLowercase p.asset_class = "cash" ∧ p.interest_rate.isSome = true ∧
        p.payment_frequency_days.isSome = true ∧
        p.next_interest_payment.isSome = true)
    ∧ ({ p with last_interest_payment := x } :
        PortfolioPosition).is_cash_with_interest = p.is_cash_with_interest :=
  ⟨is_cash_iff p, rfl⟩

/-- **C5.** Balance: with a ticker, `last_spot * amount`; without one,
`amount` itself, whatever `last_spot` is. -/
theorem get_balance_spec (p : PortfolioPosition) :
    (p.ticker.isSome = true → p.get_balance = p.last_spot * p.amount)
    ∧ (p.ticker = none → p.get_balance = p.amount) := by
  constructor <;> intro h <;>
    cases ht : p.ticker <;>
    simp_all [PortfolioPosition.get_balance]

/-- Witness for C5 at the concrete sample positions. -/
theorem get_balance_spec_witness :
    stockSample.ticker.isSome = true
      ∧ stockSample.get_balance = stockSample.last_spot * stockSample.amount
      ∧ cashSample.ticker = none
      ∧ cashSample.get_balance = cashSample.amount :=
  ⟨rfl, (get_balance_spec stockSample).1 rfl, rfl,
    (get_balance_spec cashSample).2 rfl⟩

/-- **C6.** `calculate_interest(from, to)` is
`amount * (rate/100) * (whole_days / 365)` when a rate is present, and `0`
when it is absent. -/
theorem calculate_interest_spec (p : PortfolioPosition) (d1 d2 : Int) :
    (∀ r, p.interest_rate = some r →
      p.calculate_interest d1 d2 =
        p.amount * (r / 100) * ((numDays d1 d2 : ℚ) / 365))
    ∧ (p.interest_rate = none → p.calculate_interest d1 d2 = 0) := by
  constructor
  · intro r hr
    simp [PortfolioPosition.calculate_interest, hr]
  · intro h
    simp [PortfolioPosition.calculate_interest, h]

/-- Witness for C6: a 30-day span at 5% on 1000 yields `1000*(5/100)*(30/365)`,
and a rate-free position yields 0. -/
theorem calculate_interest_spec_witness :
    cashSample.interest_rate = some 5
      ∧ cashSample.calculate_interest 0 (30 * 86400) =
          1000 * (5 / 100) * (30 / 365)
      ∧ stockSample.interest_rate = none
      ∧ stockSample.calculate_interest 0 (30 * 86400) = 0 := by
  refine ⟨rfl, ?_, rfl, (calculate_interest_spec stockSample 0 (30 * 86400)).2 rfl⟩
  have h := (calculate_interest_spec cashSample 0 (30 * 86400)).1 5 rfl
  rw [h]
  norm_num [cashSample, numDays, Int.tdiv]

/-- **C1.** When the position is cash-with-interest and the due date has
arrived, `apply_interest_if_due` returns
`calculate_interest(baseline, current)` with the baseline being
`last_interest_payment` if present else `next_interest_payment`, adds that
interest to `amount`, stamps `last_interest_payment := current`, and sets
`next_interest_payment := current + payment_frequency_days` (30 days if the
frequency were absent). -/
theorem apply_interest_due_spec (p : PortfolioPosition) (current np : Int)
    (helig : p.is_cash_with_interest = true)
    (hnp : p.next_interest_payment = some np)
    (hdue : np ≤ current) :
    p.apply_interest_if_due current =
      (some (p.calculate_interest (p.last_interest_payment.getD np) current),
        { p with
          amount := p.amount +
            p.calculate_interest (p.last_interest_payment.getD np) current,
          last_interest_payment := some current,
          next_interest_payment :=
            some (current + (p.payment_frequency_days.getD 30 : Int) * 86400) }) :=
  apply_interest_due_eq p current np helig hnp hdue

/-- Witness for C1 at the concrete cash sample, due one day after the
scheduled date. -/
theorem apply_interest_due_spec_witness :
    cashSample.is_cash_with_interest = true
      ∧ cashSample.next_interest_payment = some 86400
      ∧ (86400 : Int) ≤ 172800
      ∧ cashSample.apply_interest_if_due 172800 =
        (some (cashSample.calculate_interest
            (cashSample.last_interest_payment.getD 86400) 172800),
          { cashSample with
            amount := cashSample.amount + cashSample.calculate_interest
              (cashSample.last_interest_payment.getD 86400) 172800,
            last_interest_payment := some 172800,
            next_interest_payment :=
              some (172800 + (cashSample.payment_frequency_days.getD 30 : Int) * 86400) }) :=
  ⟨by decide, rfl, by decide,
    apply_interest_due_spec cashSample 172800 86400 (by decide) rfl (by decide)⟩

/-- **C2.** `apply_interest_if_due` never fails: a position that is not
cash-with-interest is returned untouched with no interest, and so is any
position whose `next_interest_payment` lies strictly after `current_date`. -/
theorem apply_interest_noop_spec (p : PortfolioPosition) (current : Int) :
    (p.is_cash_with_interest = false →
      p.apply_interest_if_due current = (none, p))
    ∧ (∀ np, p.next_interest_payment = some np → current < np →
      p.apply_interest_if_due current = (none, p)) :=
  ⟨apply_interest_not_eligible p current,
    fun np hnp hlt => apply_interest_pending p current np hnp hlt⟩

/-- Witness for C2: the stock sample is not eligible, and the cash sample
a day before its due date is a no-op. -/
theorem apply_interest_noop_spec_witness :
    stockSample.is_cash_with_interest = false
      ∧ stockSample.apply_interest_if_due 0 = (none, stockSample)
      ∧ cashSample.next_interest_payment = some 86400
      ∧ (0 : Int) < 86400
      ∧ cashSample.apply_interest_if_due 0 = (none, cashSample) :=
  ⟨by decide, (apply_interest_noop_spec stockSample 0).1 (by decide), rfl,
    by decide,
    (apply_interest_noop_spec cashSample 0).2 86400 rfl (by decide)⟩

/-- **C9.** Whenever `apply_interest_if_due` pays out, the new
`next_interest_payment` is exactly `current + payment_frequency_days` for
the frequency actually stored: the 30-day fallback of
`calculate_next_payment_date` is unreachable because eligibility already
demands `payment_frequency_days` to be present. -/
theorem next_payment_uses_stored_frequency (p : PortfolioPosition)
    (current : Int) (i : ℚ) (p' : PortfolioPosition)
    (h : p.apply_interest_if_due current = (some i, p')) :
    ∃ f, p.payment_frequency_days = some f
      ∧ p'.next_interest_payment = some (current + (f : Int) * 86400) := by
  cases helig : p.is_cash_with_interest with
  | false =>
    rw [apply_interest_not_eligible p current helig] at h
    simp at h
  | true =>
    have hconj := (is_cash_iff p).mp helig
    obtain ⟨f, hf⟩ := Option.isSome_iff_exists.mp hconj.2.2.1
    obtain ⟨np, hnp⟩ := Option.isSome_iff_exists.mp hconj.2.2.2
    refine ⟨f, hf, ?_⟩
    by_cases hdue : np ≤ current
    · rw [apply_interest_due_eq p current np helig hnp hdue,
        Prod.mk.injEq] at h
      rw [← h.2]
      simp [hf]
    · rw [apply_interest_pending p current np hnp (not_le.mp hdue)] at h
      simp at h

/-- Witness for C9 at the concrete cash sample: the paid-out state is
produced by `apply_interest_due_eq` and has its next due date thirty days
after the payout. -/
theorem next_payment_uses_stored_frequency_witness :
    ∃ f, cashSample.payment_frequency_days = some f
      ∧ ({ cashSample with
            amount := cashSample.amount + cashSample.calculate_interest
              (cashSample.last_interest_payment.getD 86400) 172800,
            last_interest_payment := some 172800,
            next_interest_payment :=
              some (172800 + (cashSample.payment_frequency_days.getD 30 : Int) * 86400) } :
          PortfolioPosition).next_interest_payment
          = some (172800 + (f : Int) * 86400) :=
  next_payment_uses_stored_frequency cashSample 172800 _ _
    (apply_interest_due_eq cashSample 172800 86400 (by decide) rfl (by decide))

/-- `num_days` truncates toward zero, so it is an odd function of the
direction of the interval. -/
lemma numDays_antisym (d1 d2 : Int) : numDays d2 d1 = -(numDays d1 d2) := by
  unfold numDays
  rw [show d1 - d2 = -(d2 - d1) by ring, Int.neg_tdiv]

/-- A span of at least one whole day in the reverse direction gives a
strictly negative `num_days`. -/
lemma numDays_neg_of_day_earlier (d1 d2 : Int) (h : d2 + 86400 ≤ d1) :
    numDays d1 d2 ≤ -1 := by
  unfold numDays
  set a := d2 - d1 with ha
  have h2 : (86400 : Int) ≤ -a := by omega
  have h3 : a.tdiv 86400 = -((-a).tdiv 86400) := by
    rw [← Int.neg_tdiv, neg_neg]
  rw [h3]
  have h4 : (1 : Int) ≤ (-a).tdiv 86400 := by
    rw [Int.tdiv_eq_ediv (by omega) (by norm_num),
      Int.le_ediv_iff_mul_le (by norm_num)]
    omega
  omega

/-- Interest over a reversed span of at least one whole day is strictly
negative whenever `amount * rate` is positive. -/
lemma calculate_interest_neg (p : PortfolioPosition) (d1 d2 : Int) (r : ℚ)
    (hr : p.interest_rate = some r) (hpos : 0 < p.amount * r)
    (hle : d2 + 86400 ≤ d1) : p.calculate_interest d1 d2 < 0 := by
  simp only [PortfolioPosition.calculate_interest, hr]
  have hdays : numDays d1 d2 ≤ -1 := numDays_neg_of_day_earlier d1 d2 hle
  have hdq : ((numDays d1 d2 : Int) : ℚ) < 0 := by
    have : ((numDays d1 d2 : Int) : ℚ) ≤ -1 := by exact_mod_cast hdays
    linarith
  have h1 : (0 : ℚ) < p.amount * (r / 100) := by
    rw [mul_div_assoc']
    exact div_pos hpos (by norm_num)
  exact mul_neg_of_pos_of_neg h1 (div_neg_of_neg_of_pos hdq (by norm_num))

/-- **C10, counterexample.** With `to_date` one hour (not a whole day)
earlier than `from_date`, the computed interest is `0`, not negative: the
claim "when to_date is earlier than from_date the result is negative" is
false at this input (rate `5`, amount `1000`). -/
theorem calculate_interest_not_negative_cex :
    cashSample.interest_rate = some 5
      ∧ (0 : Int) < 3600
      ∧ cashSample.calculate_interest 3600 0 = 0
      ∧ ¬ cashSample.calculate_interest 3600 0 < 0 := by
  have hz : cashSample.calculate_interest 3600 0 = 0 := by
    have hd : numDays 3600 0 = 0 := by decide
    simp [PortfolioPosition.calculate_interest, cashSample, hd]
  exact ⟨rfl, by norm_num, hz, by rw [hz]; norm_num⟩

/-- **C10, amended.** `calculate_interest` is antisymmetric in its two dates
whenever a rate is present; because the whole-day difference truncates
toward zero, the result is strictly negative once `to_date` is at least one
whole day before `from_date` and `amount * rate` is positive — and applying
interest with such a later `last_interest_payment` strictly decreases
`amount`. -/
theorem calculate_interest_antisym (p : PortfolioPosition) :
    (∀ d1 d2, p.interest_rate.isSome = true →
      p.calculate_interest d1 d2 = -(p.calculate_interest d2 d1))
    ∧ (∀ d1 d2 (r : ℚ), p.interest_rate = some r → 0 < p.amount * r →
        d2 + 86400 ≤ d1 → p.calculate_interest d1 d2 < 0)
    ∧ (∀ (current lp np : Int) (r : ℚ), p.is_cash_with_interest = true →
        p.interest_rate = some r → 0 < p.amount * r →
        p.last_interest_payment = some lp → p.next_interest_payment = some np →
        np ≤ current → current + 86400 ≤ lp →
        ((p.apply_interest_if_due current).2).amount < p.amount) := by
  refine ⟨?_, ?_, ?_⟩
  · intro d1 d2 h
    obtain ⟨r, hr⟩ := Option.isSome_iff_exists.mp h
    simp only [PortfolioPosition.calculate_interest, hr]
    rw [numDays_antisym d1 d2]
    push_cast
    ring
  · intro d1 d2 r hr hpos hle
    exact calculate_interest_neg p d1 d2 r hr hpos hle
  · intro current lp np r helig hr hpos hlast hnp hdue hlt
    rw [apply_interest_due_eq p current np helig hnp hdue]
    simp only [hlast, Option.getD_some]
    have hneg : p.calculate_interest lp current < 0 :=
      calculate_interest_neg p lp current r hr hpos hlt
    linarith

/-- The cash sample with a `last_interest_payment` four days in the future
of the (already due) schedule. -/
def cashSampleLate : PortfolioPosition :=
  { cashSample with
    last_interest_payment := some (4 * 86400)
    next_interest_payment := some 0 }

/-- Witness for the amended C10 at concrete positions: antisymmetry over one
day, strict negativity one day backwards, and a shrinking amount when the
recorded last payment lies four days after the current date. -/
theorem calculate_interest_antisym_witness :
    cashSample.calculate_interest 0 86400
        = -(cashSample.calculate_interest 86400 0)
      ∧ cashSample.calculate_interest 86400 0 < 0
      ∧ ((cashSampleLate.apply_interest_if_due 0).2).amount
          < cashSampleLate.amount :=
  ⟨(calculate_interest_antisym cashSample).1 0 86400 rfl,
    (calculate_interest_antisym cashSample).2.1 86400 0 5 rfl
      (by norm_num [cashSample]) (by norm_num),
    (calculate_interest_antisym cashSampleLate).2.2 0 (4 * 86400) 0 5
      (by decide) rfl (by norm_num [cashSampleLate, cashSample]) rfl rfl
      (by norm_num) (by norm_num)⟩

/-- The name-resolution step never touches `last_spot`. -/
lemma name_step_fst_last_spot (provider : QuoteProvider)
    (q : PortfolioPosition) :
    (handle_position_name_step provider q).1.last_spot = q.last_spot := by
  unfold handle_position_name_step
  split
  · split <;> rfl
  · rfl

/-- The price step never touches `name`. -/
lemma price_step_name (quote : YResponse) (p : PortfolioPosition) :
    (handle_position_price_step quote p).name = p.name := by
  unfold handle_position_price_step
  split
  · rfl
  · split
    · split <;> rfl
    · rfl

/-- With no live quote and a non-empty series, the price step takes the
close of the series' last entry. -/
lemma price_step_fallback (quote : YResponse) (p : PortfolioPosition)
    (e : YahooError) (qs : List YQuote) (q : YQuote)
    (hl : quote.last_quote = Except.error e)
    (hqs : quote.quotes = Except.ok qs) (hlast : qs.getLast? = some q) :
    handle_position_price_step quote p = p.update_price q.close := by
  simp [handle_position_price_step, hl, hqs, hlast]

/-- With no live quote and an empty series, the price step is the
identity. -/
lemma price_step_empty (quote : YResponse) (p : PortfolioPosition)
    (e : YahooError) (hl : quote.last_quote = Except.error e)
    (hqs : quote.quotes = Except.ok []) :
    handle_position_price_step quote p = p := by
  simp [handle_position_price_step, hl, hqs]

/-- **C3.** Synchronizing a ticker-bearing position when the live quote is
unavailable: a non-empty historical series sets `last_spot` to its last
entry's close; an empty series leaves `last_spot` at its prior value. -/
theorem handle_position_price_fallback (provider : QuoteProvider)
    (p : PortfolioPosition) (t : String) (resp : YResponse) (e : YahooError)
    (ht : p.ticker = some t) (hq : provider.quote_price = Except.ok resp)
    (hl : resp.last_quote = Except.error e) :
    (∀ qs q, resp.quotes = Except.ok qs → qs.getLast? = some q →
      (handle_position provider p).1.last_spot = q.close)
    ∧ (resp.quotes = Except.ok [] →
      (handle_position provider p).1.last_spot = p.last_spot) := by
  have hmain : handle_position provider p =
      handle_position_name_step provider
        (handle_position_price_step resp p) := by
    unfold handle_position
    rw [ht, hq]
  constructor
  · intro qs q hqs hlast
    rw [hmain, name_step_fst_last_spot,
      price_step_fallback resp p e qs q hl hqs hlast]
    rfl
  · intro hqs
    rw [hmain, name_step_fst_last_spot, price_step_empty resp p e hl hqs]

/-- Witness for C3: a concrete provider whose live quote errors; with the
one-entry series the sample's `last_spot` becomes 42, with the empty series
it stays at the prior 3. -/
theorem handle_position_price_fallback_witness :
    (handle_position
        ⟨Except.ok ⟨Except.error .OtherError, Except.ok [⟨41⟩, ⟨42⟩]⟩,
          Except.ok ⟨[⟨"Apple Inc."⟩]⟩⟩
        stockSample).1.last_spot = 42
      ∧ (handle_position
          ⟨Except.ok ⟨Except.error .OtherError, Except.ok []⟩,
            Except.ok ⟨[⟨"Apple Inc."⟩]⟩⟩
          stockSample).1.last_spot = stockSample.last_spot :=
  ⟨(handle_position_price_fallback
      ⟨Except.ok ⟨Except.error .OtherError, Except.ok [⟨41⟩, ⟨42⟩]⟩,
        Except.ok ⟨[⟨"Apple Inc."⟩]⟩⟩
      stockSample "AAPL" ⟨Except.error .OtherError, Except.ok [⟨41⟩, ⟨42⟩]⟩
      .OtherError rfl rfl rfl).1 [⟨41⟩, ⟨42⟩] ⟨42⟩ rfl rfl,
    (handle_position_price_fallback
      ⟨Except.ok ⟨Except.error .OtherError, Except.ok []⟩,
        Except.ok ⟨[⟨"Apple Inc."⟩]⟩⟩
      stockSample "AAPL" ⟨Except.error .OtherError, Except.ok []⟩
      .OtherError rfl rfl rfl).2 rfl⟩

/-- **C7.** During synchronization of a ticker-bearing position with no
name: an empty search result makes the whole call return an error
(`NoResult`, not a silent skip); a non-empty one sets `name` to the first
match's short display name on the returned position. -/
theorem handle_position_name_resolution (provider : QuoteProvider)
    (p : PortfolioPosition) (t : String) (resp : YResponse)
    (ht : p.ticker = some t) (hq : provider.quote_price = Except.ok resp)
    (hname : p.name = none) :
    (provider.search = Except.ok ⟨[]⟩ →
      (handle_position provider p).2 = Except.error YahooError.NoResult)
    ∧ (∀ item rest, provider.search = Except.ok ⟨item :: rest⟩ →
      ∃ p', (handle_position provider p).2 = Except.ok p'
        ∧ p'.name = some item.short_name) := by
  have hmain : handle_position provider p =
      handle_position_name_step provider
        (handle_position_price_step resp p) := by
    unfold handle_position
    rw [ht, hq]
  have hpn : (handle_position_price_step resp p).name = none :=
    (price_step_name resp p).trans hname
  constructor
  · intro hs
    rw [hmain]
    unfold handle_position_name_step
    rw [hpn]
    simp [get_quote_name, hs]
  · intro item rest hs
    rw [hmain]
    unfold handle_position_name_step
    rw [hpn]
    simp only [get_quote_name, hs, List.head?, Option.isNone_none, if_true]
    exact ⟨_, rfl, rfl⟩

/-- Witness for C7: a concrete nameless position; the empty search errors
the call, the non-empty one names the snapshot `"Apple Inc."`. -/
theorem handle_position_name_resolution_witness :
    (handle_position
        ⟨Except.ok ⟨Except.ok ⟨40⟩, Except.ok []⟩, Except.ok ⟨[]⟩⟩
        { stockSample with name := none }).2
        = Except.error YahooError.NoResult
      ∧ ∃ p', (handle_position
          ⟨Except.ok ⟨Except.ok ⟨40⟩, Except.ok []⟩,
            Except.ok ⟨[⟨"Apple Inc."⟩, ⟨"Apple Hospitality"⟩]⟩⟩
          { stockSample with name := none }).2 = Except.ok p'
        ∧ p'.name = some "Apple Inc." :=
  ⟨(handle_position_name_resolution
      ⟨Except.ok ⟨Except.ok ⟨40⟩, Except.ok []⟩, Except.ok ⟨[]⟩⟩
      { stockSample with name := none } "AAPL"
      ⟨Except.ok ⟨40⟩, Except.ok []⟩ rfl rfl rfl).1 rfl,
    (handle_position_name_resolution
      ⟨Except.ok ⟨Except.ok ⟨40⟩, Except.ok []⟩,
        Except.ok ⟨[⟨"Apple Inc."⟩, ⟨"Apple Hospitality"⟩]⟩⟩
      { stockSample with name := none } "AAPL"
      ⟨Except.ok ⟨40⟩, Except.ok []⟩ rfl rfl rfl).2
      ⟨"Apple Inc."⟩ [⟨"Apple Hospitality"⟩] rfl⟩

/-- **C8.** `last_spot` cannot be supplied through the textual input: every
successfully decoded position starts with `last_spot = 0`, whatever the
input record carried in that field — and the interest-accrual transition
never writes `last_spot`, which only price synchronization updates. -/
theorem decoded_last_spot_zero :
    (∀ raw p, decode_position raw = some p → p.last_spot = 0)
    ∧ (∀ (p : PortfolioPosition) (c : Int),
      ((p.apply_interest_if_due c).2).last_spot = p.last_spot) := by
  constructor
  · intro raw p h
    cases h1 : decodeDateField raw.last_interest_payment with
    | none => simp [decode_position, h1] at h
    | some lip =>
      cases h2 : decodeDateField raw.next_interest_payment with
      | none => simp [decode_position, h1, h2] at h
      | some nip =>
        simp [decode_position, h1, h2] at h
        subst h
        rfl
  · intro p c
    cases helig : p.is_cash_with_interest with
    | false => rw [apply_interest_not_eligible p c helig]
    | true =>
      obtain ⟨np, hnp⟩ := Option.isSome_iff_exists.mp
        ((is_cash_iff p).mp helig).2.2.2
      by_cases hdue : np ≤ c
      · rw [apply_interest_due_eq p c np helig hnp hdue]
      · rw [apply_interest_pending p c np hnp (not_le.mp hdue)]

/-- An input record that does carry a `LastSpot` value (5) and an
empty-string date (which decodes to "absent"). -/
def rawSample : RawPosition :=
  { name := none, ticker := none, asset_class := "Cash", amount := 250
    interest_rate := some 3, payment_frequency_days := some 7
    last_interest_payment := some "", next_interest_payment := none
    last_spot := some 5 }

/-- The position `rawSample` decodes to. -/
def rawSampleDecoded : PortfolioPosition :=
  { name := none, ticker := none, asset_class := "Cash", amount := 250
    interest_rate := some 3, payment_frequency_days := some 7
    last_interest_payment := none, next_interest_payment := none
    last_spot := 0 }

/-- Witness for C8: the record supplies `LastSpot = 5`, yet the decoded
position has `last_spot = 0`, and accrual leaves that field alone. -/
theorem decoded_last_spot_zero_witness :
    rawSample.last_spot = some 5
      ∧ decode_position rawSample = some rawSampleDecoded
      ∧ rawSampleDecoded.last_spot = 0
      ∧ ((rawSampleDecoded.apply_interest_if_due 86400).2).last_spot
          = rawSampleDecoded.last_spot :=
  ⟨rfl, by rfl,
    decoded_last_spot_zero.1 rawSample rawSampleDecoded (by rfl),
    decoded_last_spot_zero.2 rawSampleDecoded 86400⟩
